import Mathlib

set_option maxHeartbeats 1000000

/-! Shallow embedding of fragments of the cosmos ibc-rs repository:
chain identifiers (ics24 host types), the channel handshake messages
`MsgChannelOpenAck` and `MsgChannelCloseInit` (ics04), the connection
`OpenConfirm` handler (ics03), and the query context of the testkit.
Rust strings are embedded as lists of characters (all identifiers in
scope are ASCII, so characters coincide with bytes), machine integers
as natural numbers with explicit bounds where overflow matters, and
fallible functions as `Except` or `Option` values. -/

deriving instance DecidableEq for Except

/-- Characters of a Rust string slice, as a list of chars. -/
abbrev Chars := List Char

/-- The number of values of a `u64`, so `U64_LIMIT - 1` is `u64::MAX`. -/
def U64_LIMIT : Nat := 2 ^ 64

/-- Decimal digit test on a char (Rust `char::is_ascii_digit`). -/
def isDigitChar (c : Char) : Bool := 48 ≤ c.toNat && c.toNat ≤ 57

/-- Value of a decimal numeral read left to right, as Rust
`str::parse::<u64>` accumulates it (before its overflow check). -/
def digitsToNat (l : Chars) : Nat := l.foldl (fun a c => a * 10 + (c.toNat - 48)) 0

/-- Character for the decimal digit `d`. -/
def digitChar (d : Nat) : Char := Char.ofNat (48 + d)

/-- Fuelled decimal rendering, most significant digit first; the fuel is
only there to make the recursion structural. -/
def natDigsAux : Nat → Nat → Chars
  | 0, _ => []
  | fuel + 1, n =>
    if n < 10 then [digitChar n]
    else natDigsAux fuel (n / 10) ++ [digitChar (n % 10)]

/-- Decimal rendering of a `u64`, as Rust `format!` produces it. -/
def u64Render (n : Nat) : Chars := natDigsAux (n + 1) n

/-- Rust `str::parse::<u64>`: an optional leading plus sign, then one or
more decimal digits, value checked against the `u64` range. -/
def parse_u64 (w : Chars) : Option Nat :=
  let digs :=
    match w with
    | [] => w
    | c :: rest => if c = '+' then rest else w
  if digs = [] then none
  else if digs.all isDigitChar then
    if digitsToNat digs < U64_LIMIT then some (digitsToNat digs) else none
  else none

/-- Rust `str::rsplit_once(sep)` over a char list: split at the last
occurrence of `sep`, or `none` when `sep` does not occur. -/
def rsplitOnceList (sep : Char) : Chars → Option (Chars × Chars)
  | [] => none
  | c :: rest =>
    match rsplitOnceList sep rest with
    | some (a, b) => some (c :: a, b)
    | none => if c = sep then some ([], rest) else none

/-- Error type of the ics24 identifier validation, with the variants the
verified fragments can produce. -/
inductive IdentifierError where
  | InvalidCharacter (id : Chars)
  | InvalidLength (id : Chars)
  | UnformattedRevisionNumber (chain_id : Chars)
  | RevisionNumberOverflow
  deriving DecidableEq, Repr

/-- Modelled from the spec: the ICS-24 identifier charset, letters and
digits plus the symbols dot, underscore, plus, dash, hash, brackets and
angle brackets (the function `validate_identifier_chars` lives in
`ics24-host/types/src/validate.rs`, which is not among the sources; the
in-source test cases of `chain_id.rs` pin this charset). -/
def isValidIcsChar (c : Char) : Bool :=
  (65 ≤ c.toNat && c.toNat ≤ 90) || (97 ≤ c.toNat && c.toNat ≤ 122) ||
    isDigitChar c || ['.', '_', '+', '-', '#', '[', ']', '<', '>'].contains c

/-- Modelled from the spec: `validate_identifier_chars` rejects an empty
identifier and any identifier with a character outside the ICS-24
charset. -/
def validate_identifier_chars (id : Chars) : Except IdentifierError Unit :=
  if id = [] then Except.error (IdentifierError.InvalidCharacter id)
  else if id.all isValidIcsChar then Except.ok ()
  else Except.error (IdentifierError.InvalidCharacter id)

/-- Modelled from the spec: `validate_identifier_length` checks the
length against inclusive bounds. -/
def validate_identifier_length (id : Chars) (minL maxL : Nat) : Except IdentifierError Unit :=
  if minL ≤ id.length ∧ id.length ≤ maxL then Except.ok ()
  else Except.error (IdentifierError.InvalidLength id)

/-- Modelled from the spec: `validate_prefix_length` checks that the
chain name still forms a valid identifier when suffixed with the
smallest and the largest revision number (the in-source tests of
`chain_id.rs` pin this: a 43-char name with a revision is accepted, a
44-char name is not). -/
def validate_prefix_length (p : Chars) (minL maxL : Nat) : Except IdentifierError Unit :=
  match validate_identifier_length (p ++ '-' :: u64Render 0) minL maxL with
  | Except.error e => Except.error e
  | Except.ok _ => validate_identifier_length (p ++ '-' :: u64Render (U64_LIMIT - 1)) minL maxL

/-- Domain type for chain identifiers (`ChainId` in `chain_id.rs`). -/
structure ChainId where
  id : Chars
  revision_number : Nat
  deriving DecidableEq, Repr

/-- The helper `parse_chain_id_string` of `chain_id.rs`: split at the
last dash, reject a revision numeral with a leading zero unless it is a
single character, then parse the revision as a `u64`. -/
def parse_chain_id_string (s : Chars) : Except IdentifierError (Chars × Nat) :=
  match rsplitOnceList '-' s with
  | none => Except.error (IdentifierError.UnformattedRevisionNumber s)
  | some (name, revStr) =>
    if revStr.head? ≠ some '0' ∨ revStr.length = 1 then
      match parse_u64 revStr with
      | some n => Except.ok (name, n)
      | none => Except.error (IdentifierError.UnformattedRevisionNumber s)
    else Except.error (IdentifierError.UnformattedRevisionNumber s)

/-- The `FromStr` instance of `ChainId`: validate the characters, then
either parse a name-revision pair (checking the name length) or accept a
free-form identifier with revision number 0 (checking the full length). -/
def ChainId.from_str (s : Chars) : Except IdentifierError ChainId :=
  match validate_identifier_chars s with
  | Except.error e => Except.error e
  | Except.ok _ =>
    match parse_chain_id_string s with
    | Except.ok (name, revision_number) =>
      match validate_prefix_length name 1 64 with
      | Except.error e => Except.error e
      | Except.ok _ => Except.ok { id := s, revision_number := revision_number }
    | Except.error _ =>
      match validate_identifier_length s 1 64 with
      | Except.error e => Except.error e
      | Except.ok _ => Except.ok { id := s, revision_number := 0 }

/-- The constructor `ChainId::new` delegates to `FromStr`. -/
def ChainId.new (s : Chars) : Except IdentifierError ChainId := ChainId.from_str s

/-- The method `ChainId::split_chain_id` re-parses the stored string. -/
def ChainId.split_chain_id (c : ChainId) : Except IdentifierError (Chars × Nat) :=
  parse_chain_id_string c.id

/-- Rust `u64::checked_add`. -/
def u64CheckedAdd (a b : Nat) : Option Nat :=
  if a + b < U64_LIMIT then some (a + b) else none

/-- The method `ChainId::increment_revision_number`. The Rust method
mutates `&mut self` and returns a `Result`; the embedding returns both
the result and the post-call value of the receiver. -/
def ChainId.increment_revision_number (c : ChainId) : Except IdentifierError Unit × ChainId :=
  match ChainId.split_chain_id c with
  | Except.error e => (Except.error e, c)
  | Except.ok (chain_name, _) =>
    match u64CheckedAdd c.revision_number 1 with
    | none => (Except.error IdentifierError.RevisionNumberOverflow, c)
    | some inc =>
      (Except.ok (), { id := chain_name ++ '-' :: u64Render inc, revision_number := inc })

theorem digitChar_isDigit (d : Nat) (hd : d < 10) : isDigitChar (digitChar d) = true := by
  interval_cases d <;> decide

theorem digitChar_val (d : Nat) (hd : d < 10) : (digitChar d).toNat - 48 = d := by
  interval_cases d <;> decide

theorem isDigitChar_bounds (c : Char) (h : isDigitChar c = true) :
    48 ≤ c.toNat ∧ c.toNat ≤ 57 := by
  simp only [isDigitChar, Bool.and_eq_true, decide_eq_true_eq] at h
  exact h

theorem digitChar_of_digit (c : Char) (h : isDigitChar c = true) :
    digitChar (c.toNat - 48) = c := by
  obtain ⟨h1, _⟩ := isDigitChar_bounds c h
  have he : 48 + (c.toNat - 48) = c.toNat := by omega
  unfold digitChar
  rw [he]
  exact Char.ofNat_toNat c

theorem char_eq_zero_of_toNat (c : Char) (h : c.toNat = 48) : c = '0' := by
  have := Char.ofNat_toNat c
  rw [h] at this
  rw [← this]

theorem digitsToNat_append_singleton (xs : Chars) (c : Char) :
    digitsToNat (xs ++ [c]) = 10 * digitsToNat xs + (c.toNat - 48) := by
  unfold digitsToNat
  rw [List.foldl_append]
  simp [Nat.mul_comm]

theorem foldl_dtn_ge (l : Chars) : ∀ a : Nat, a ≤ l.foldl (fun a c => a * 10 + (c.toNat - 48)) a := by
  induction l with
  | nil => intro a; exact Nat.le_refl a
  | cons c t ih =>
    intro a
    calc a ≤ a * 10 + (c.toNat - 48) := by omega
      _ ≤ _ := ih _

theorem digitsToNat_pos (xs : Chars) (hne : xs ≠ [])
    (hdig : ∀ c ∈ xs, isDigitChar c = true) (hlz : xs.head? ≠ some '0') :
    1 ≤ digitsToNat xs := by
  match xs, hne with
  | a :: t, _ =>
    have ha : isDigitChar a = true := hdig a (List.mem_cons_self a t)
    obtain ⟨h1, _⟩ := isDigitChar_bounds a ha
    have hne0 : a ≠ '0' := by
      intro he; exact hlz (by rw [he]; rfl)
    have h48 : a.toNat ≠ 48 := by
      intro he; exact hne0 (char_eq_zero_of_toNat a he)
    have : 1 ≤ a.toNat - 48 := by omega
    unfold digitsToNat
    simp only [List.foldl_cons]
    calc 1 ≤ 0 * 10 + (a.toNat - 48) := by omega
      _ ≤ _ := foldl_dtn_ge t _

theorem natDigsAux_fuel : ∀ f1 f2 n : Nat, n < f1 → n < f2 →
    natDigsAux f1 n = natDigsAux f2 n := by
  intro f1
  induction f1 with
  | zero => intro f2 n h1 _; omega
  | succ f ih =>
    intro f2 n h1 h2
    cases f2 with
    | zero => omega
    | succ g =>
      simp only [natDigsAux]
      by_cases h10 : n < 10
      · simp [h10]
      · have hdl : n / 10 < n := Nat.div_lt_self (by omega) (by omega)
        rw [if_neg h10, if_neg h10, ih g (n / 10) (by omega) (by omega)]

theorem natDigsAux_spec : ∀ n : Nat, ∀ fuel : Nat, n < fuel →
    natDigsAux fuel n ≠ [] ∧ (∀ c ∈ natDigsAux fuel n, isDigitChar c = true) ∧
    digitsToNat (natDigsAux fuel n) = n ∧
    ((natDigsAux fuel n).head? = some '0' → n = 0) := by
  intro n
  induction n using Nat.strong_induction_on with
  | _ n ih =>
    intro fuel hf
    cases fuel with
    | zero => omega
    | succ f =>
      by_cases h10 : n < 10
      · simp only [natDigsAux, if_pos h10]
        refine ⟨by simp, ?_, ?_, ?_⟩
        · intro c hc
          simp only [List.mem_singleton] at hc
          subst hc
          exact digitChar_isDigit n h10
        · simp [digitsToNat, digitChar_val n h10]
        · intro hh
          simp only [List.head?] at hh
          have hv := digitChar_val n h10
          have hc0 : digitChar n = '0' := by injection hh
          rw [hc0] at hv
          simpa using hv.symm
      · have hdl : n / 10 < n := Nat.div_lt_self (by omega) (by omega)
        obtain ⟨hne, hdig, hval, hhead⟩ := ih (n / 10) hdl f (by omega)
        simp only [natDigsAux, if_neg h10]
        refine ⟨by simp [hne], ?_, ?_, ?_⟩
        · intro c hc
          rcases List.mem_append.mp hc with h | h
          · exact hdig c h
          · simp only [List.mem_singleton] at h
            subst h
            exact digitChar_isDigit (n % 10) (Nat.mod_lt n (by omega))
        · rw [digitsToNat_append_singleton, hval, digitChar_val (n % 10) (Nat.mod_lt n (by omega))]
          omega
        · intro hh
          cases hx : natDigsAux f (n / 10) with
          | nil => exact absurd hx hne
          | cons c t =>
            rw [hx] at hh
            simp only [List.cons_append, List.head?] at hh
            have hc0 : c = '0' := by injection hh
            have hz : n / 10 = 0 := hhead (by rw [hx, hc0]; rfl)
            omega

theorem u64Render_spec (n : Nat) :
    u64Render n ≠ [] ∧ (∀ c ∈ u64Render n, isDigitChar c = true) ∧
    digitsToNat (u64Render n) = n ∧ ((u64Render n).head? = some '0' → n = 0) :=
  natDigsAux_spec n (n + 1) (Nat.lt_succ_self n)

theorem render_digitsToNat : ∀ w : Chars, w ≠ [] → (∀ c ∈ w, isDigitChar c = true) →
    (w.head? ≠ some '0' ∨ w.length = 1) → u64Render (digitsToNat w) = w := by
  intro w
  induction w using List.reverseRecOn with
  | nil => intro h _ _; exact absurd rfl h
  | append_singleton xs d ih =>
    intro _ hdig hlz
    have hd : isDigitChar d = true := hdig d (by simp)
    have hdv : d.toNat - 48 < 10 := by
      obtain ⟨hb1, hb2⟩ := isDigitChar_bounds d hd
      omega
    rw [digitsToNat_append_singleton]
    cases xs with
    | nil =>
      have hsingle : u64Render (d.toNat - 48) = [digitChar (d.toNat - 48)] := by
        simp only [u64Render, natDigsAux]
        rw [if_pos hdv]
      simp [digitsToNat, hsingle, digitChar_of_digit d hd]
    | cons a t =>
      have hne2 : a :: t ≠ [] := by simp
      have hdig2 : ∀ c ∈ a :: t, isDigitChar c = true := by
        intro c hc
        exact hdig c (List.mem_append.mpr (Or.inl hc))
      have hh0 : (a :: t).head? ≠ some '0' := by
        rcases hlz with h | h
        · intro hc
          have ha : a = '0' := by simpa using hc
          exact h (by simp [ha])
        · simp only [List.length_append, List.length_cons, List.length_singleton] at h
          omega
      have hpos := digitsToNat_pos (a :: t) hne2 hdig2 hh0
      have hih := ih hne2 hdig2 (Or.inl hh0)
      unfold u64Render at hih
      set v := digitsToNat (a :: t) with hv
      have hn10 : ¬ (10 * v + (d.toNat - 48) < 10) := by omega
      have hdiv : (10 * v + (d.toNat - 48)) / 10 = v := by omega
      have hmod : (10 * v + (d.toNat - 48)) % 10 = d.toNat - 48 := by omega
      have hstep : u64Render (10 * v + (d.toNat - 48)) =
          natDigsAux (10 * v + (d.toNat - 48)) ((10 * v + (d.toNat - 48)) / 10) ++
            [digitChar ((10 * v + (d.toNat - 48)) % 10)] := by
        simp only [u64Render, natDigsAux]
        rw [if_neg hn10]
      rw [hstep, hdiv, hmod, digitChar_of_digit d hd,
        natDigsAux_fuel _ (v + 1) v (by omega) (by omega), hih]

theorem parse_u64_ok (w : Chars) (n : Nat) (hw : w.head? ≠ some '+')
    (h : parse_u64 w = some n) :
    w ≠ [] ∧ (∀ c ∈ w, isDigitChar c = true) ∧ digitsToNat w = n ∧ n < U64_LIMIT := by
  cases w with
  | nil => simp [parse_u64] at h
  | cons c rest =>
    have hc : ¬ (c = '+') := by
      intro he
      exact hw (by rw [he]; rfl)
    simp only [parse_u64, if_neg hc] at h
    rw [if_neg (by simp : ¬ (c :: rest = ([] : Chars)))] at h
    by_cases hdig : (c :: rest).all isDigitChar = true
    · rw [if_pos hdig] at h
      by_cases hlt : digitsToNat (c :: rest) < U64_LIMIT
      · rw [if_pos hlt] at h
        have hn : digitsToNat (c :: rest) = n := Option.some.inj h
        refine ⟨by simp, ?_, hn, by omega⟩
        intro x hx
        exact List.all_eq_true.mp hdig x hx
      · rw [if_neg hlt] at h
        exact absurd h (by simp)
    · rw [if_neg hdig] at h
      exact absurd h (by simp)

theorem rsplitOnceList_eq (sep : Char) : ∀ l a b : Chars,
    rsplitOnceList sep l = some (a, b) → l = a ++ sep :: b := by
  intro l
  induction l with
  | nil => intro a b h; simp [rsplitOnceList] at h
  | cons c rest ih =>
    intro a b h
    cases hr : rsplitOnceList sep rest with
    | some pr =>
      obtain ⟨a2, b2⟩ := pr
      simp only [rsplitOnceList, hr, Option.some.injEq, Prod.mk.injEq] at h
      obtain ⟨h1, h2⟩ := h
      subst h1; subst h2
      rw [ih a2 b2 hr]
      rfl
    | none =>
      simp only [rsplitOnceList, hr] at h
      by_cases hc : c = sep
      · rw [if_pos hc] at h
        simp only [Option.some.injEq, Prod.mk.injEq] at h
        obtain ⟨h1, h2⟩ := h
        subst h1; subst h2
        rw [hc]
        rfl
      · rw [if_neg hc] at h
        exact absurd h (by simp)

theorem rsplitOnceList_none (sep : Char) : ∀ l : Chars, sep ∉ l → rsplitOnceList sep l = none := by
  intro l
  induction l with
  | nil => intro _; rfl
  | cons c rest ih =>
    intro hm
    have h1 : sep ∉ rest := fun hr => hm (List.mem_cons_of_mem c hr)
    have h2 : ¬ (c = sep) := fun he => hm (by rw [he]; exact List.mem_cons_self sep rest)
    simp only [rsplitOnceList, ih h1, if_neg h2]

theorem rsplitOnceList_append (sep : Char) : ∀ name w : Chars, sep ∉ w →
    rsplitOnceList sep (name ++ sep :: w) = some (name, w) := by
  intro name
  induction name with
  | nil =>
    intro w hw
    simp [rsplitOnceList, rsplitOnceList_none sep w hw]
  | cons c nm ih =>
    intro w hw
    simp only [List.cons_append, rsplitOnceList, List.append_eq, ih w hw]

theorem parse_chain_id_string_ok (s name : Chars) (rev : Nat)
    (h : parse_chain_id_string s = Except.ok (name, rev)) :
    ∃ w : Chars, rsplitOnceList '-' s = some (name, w) ∧
      (w.head? ≠ some '0' ∨ w.length = 1) ∧ parse_u64 w = some rev := by
  cases hs : rsplitOnceList '-' s with
  | none => simp [parse_chain_id_string, hs] at h
  | some pr =>
    obtain ⟨nm, w⟩ := pr
    by_cases hf : w.head? ≠ some '0' ∨ w.length = 1
    · cases hu : parse_u64 w with
      | none => simp [parse_chain_id_string, hs, hf, hu] at h
      | some n =>
        simp only [parse_chain_id_string, hs, hf, if_true, hu, Except.ok.injEq,
          Prod.mk.injEq] at h
        obtain ⟨h1, h2⟩ := h
        subst h1; subst h2
        exact ⟨w, rfl, hf, hu⟩
    · simp [parse_chain_id_string, hs, hf] at h

theorem ChainId.from_str_ok (s : Chars) (c : ChainId) (h : ChainId.from_str s = Except.ok c) :
    c.id = s ∧ ((∃ name, parse_chain_id_string s = Except.ok (name, c.revision_number)) ∨
      c.revision_number = 0) := by
  obtain ⟨cid, crev⟩ := c
  cases hv : validate_identifier_chars s with
  | error e => simp [ChainId.from_str, hv] at h
  | ok u =>
    cases hp : parse_chain_id_string s with
    | ok pr =>
      obtain ⟨name, rev⟩ := pr
      cases hl : validate_prefix_length name 1 64 with
      | error e => simp [ChainId.from_str, hv, hp, hl] at h
      | ok u2 =>
        simp only [ChainId.from_str, hv, hp, hl, Except.ok.injEq, ChainId.mk.injEq] at h
        obtain ⟨h1, h2⟩ := h
        subst h1; subst h2
        exact ⟨rfl, Or.inl ⟨name, rfl⟩⟩
    | error e =>
      cases hl : validate_identifier_length s 1 64 with
      | error e2 => simp [ChainId.from_str, hv, hp, hl] at h
      | ok u2 =>
        simp only [ChainId.from_str, hv, hp, hl, Except.ok.injEq, ChainId.mk.injEq] at h
        obtain ⟨h1, h2⟩ := h
        subst h1; subst h2
        exact ⟨rfl, Or.inr rfl⟩

theorem validate_identifier_chars_ok (id : Chars) (hne : id ≠ [])
    (h : ∀ c ∈ id, isValidIcsChar c = true) : validate_identifier_chars id = Except.ok () := by
  rw [validate_identifier_chars, if_neg hne, if_pos (List.all_eq_true.mpr h)]

theorem validate_prefix_length_ok (p : Chars) (hmin : 1 ≤ p.length) (hmax : p.length ≤ 43) :
    validate_prefix_length p 1 64 = Except.ok () := by
  have h0 : (u64Render 0).length = 1 := by decide
  have hM : (u64Render (U64_LIMIT - 1)).length = 20 := by decide
  have hA : validate_identifier_length (p ++ '-' :: u64Render 0) 1 64 = Except.ok () := by
    rw [validate_identifier_length, if_pos]
    simp only [List.length_append, List.length_cons, h0]
    omega
  have hB : validate_identifier_length (p ++ '-' :: u64Render (U64_LIMIT - 1)) 1 64 =
      Except.ok () := by
    rw [validate_identifier_length, if_pos]
    simp only [List.length_append, List.length_cons, hM]
    omega
  simp [validate_prefix_length, hA, hB]

/-- C3 counterexample: the string `chainA-+1` is accepted by `ChainId`
parsing and splits into the name `chainA` and revision 1 (Rust
`str::parse::<u64>` accepts a leading plus sign), but formatting the
name-revision pair yields `chainA-1`, which differs from the input. -/
theorem c3_chain_id_roundtrip_counterexample :
    ChainId.new ("chainA-+1".toList) =
      Except.ok { id := "chainA-+1".toList, revision_number := 1 } ∧
    ChainId.split_chain_id { id := "chainA-+1".toList, revision_number := 1 } =
      Except.ok ("chainA".toList, 1) ∧
    "chainA".toList ++ '-' :: u64Render 1 ≠ "chainA-+1".toList := by
  refine ⟨by decide, by decide, by decide⟩

/-- C3 (amended): for every string accepted by `ChainId` parsing in the
name-revision form whose revision suffix does not begin with a plus
sign, formatting the parsed name and revision reproduces the input
exactly, and the revision suffix has no leading zero unless it is
exactly the single digit zero. -/
theorem c3_chain_id_roundtrip (s name w : Chars) (rev : Nat) (c : ChainId)
    (hnew : ChainId.new s = Except.ok c)
    (hsplit : ChainId.split_chain_id c = Except.ok (name, rev))
    (hw : rsplitOnceList '-' s = some (name, w))
    (hplus : w.head? ≠ some '+') :
    name ++ '-' :: u64Render rev = s ∧ (w.head? = some '0' → w = ['0']) := by
  obtain ⟨hid, _⟩ := ChainId.from_str_ok s c hnew
  rw [ChainId.split_chain_id, hid] at hsplit
  obtain ⟨w2, hs2, hf2, hu2⟩ := parse_chain_id_string_ok s name rev hsplit
  rw [hw] at hs2
  have hww : w = w2 := by
    have := Option.some.inj hs2
    exact (Prod.mk.injEq .. ▸ this).2
  subst hww
  obtain ⟨hne, hdig, hval, hlt⟩ := parse_u64_ok w rev hplus hu2
  have hrender : u64Render rev = w := by
    rw [← hval]
    exact render_digitsToNat w hne hdig hf2
  constructor
  · rw [hrender]
    exact (rsplitOnceList_eq '-' s name w hw).symm
  · intro h0
    rcases hf2 with hnz | h1
    · exact absurd h0 hnz
    · match w, h1 with
      | [x], _ =>
        have : x = '0' := by simpa using h0
        rw [this]

theorem c3_chain_id_roundtrip_witness :
    "chainA".toList ++ '-' :: u64Render 12 = "chainA-12".toList ∧
    (("12".toList : Chars).head? = some '0' → ("12".toList : Chars) = ['0']) :=
  c3_chain_id_roundtrip ("chainA-12".toList) ("chainA".toList) ("12".toList) 12
    { id := "chainA-12".toList, revision_number := 12 } (by decide) (by decide) (by decide)
    (by decide)

/-- C4: incrementing the revision number of `chainA-1` succeeds and
yields `chainA-2` with revision number 2, and incrementing any chain id
constructed by parsing whose revision number is `u64::MAX` fails with
`RevisionNumberOverflow` (leaving the receiver unchanged). -/
theorem c4_increment_revision :
    (∀ c : ChainId, ChainId.new ("chainA-1".toList) = Except.ok c →
      ChainId.increment_revision_number c =
        (Except.ok (), { id := "chainA-2".toList, revision_number := 2 })) ∧
    (∀ (s : Chars) (c : ChainId), ChainId.new s = Except.ok c →
      c.revision_number = U64_LIMIT - 1 →
      ChainId.increment_revision_number c =
        (Except.error IdentifierError.RevisionNumberOverflow, c)) := by
  constructor
  · intro c h
    have he : ChainId.new ("chainA-1".toList) =
        Except.ok { id := "chainA-1".toList, revision_number := 1 } := by decide
    rw [he] at h
    rw [← Except.ok.inj h]
    decide
  · intro s c h hrev
    obtain ⟨hid, hca⟩ := ChainId.from_str_ok s c h
    rcases hca with ⟨name, hp⟩ | h0
    · have hadd : u64CheckedAdd c.revision_number 1 = none := by
        rw [hrev]
        decide
      simp [ChainId.increment_revision_number, ChainId.split_chain_id, hid, hp, hadd]
    · rw [h0] at hrev
      exact absurd hrev (by decide)

theorem c4_increment_revision_witness :
    ChainId.increment_revision_number { id := "chainA-1".toList, revision_number := 1 } =
      (Except.ok (), { id := "chainA-2".toList, revision_number := 2 }) ∧
    ChainId.increment_revision_number
        { id := "chainA-18446744073709551615".toList, revision_number := U64_LIMIT - 1 } =
      (Except.error IdentifierError.RevisionNumberOverflow,
        { id := "chainA-18446744073709551615".toList, revision_number := U64_LIMIT - 1 }) :=
  ⟨c4_increment_revision.1 _ (by decide),
    c4_increment_revision.2 ("chainA-18446744073709551615".toList) _ (by decide) (by decide)⟩

/-- C5 counterexample: `ChainId::new` does not reject a chain id whose
revision part has a leading zero; `chainA-01` is accepted as a free-form
identifier with revision number 0. -/
theorem c5_leading_zero_counterexample :
    ChainId.new ("chainA-01".toList) =
      Except.ok { id := "chainA-01".toList, revision_number := 0 } := by
  decide

/-- C5 (amended): for every valid name, a chain id with the leading-zero
suffix `01` is still accepted, but only as a free-form identifier with
revision number 0 (the suffix is not parsed as a revision), while the
suffix `0` is accepted with revision number 0 parsed from the suffix. -/
theorem c5_leading_zero (name : Chars) (hchars : ∀ c ∈ name, isValidIcsChar c = true)
    (hmin : 1 ≤ name.length) (hmax : name.length ≤ 43) :
    ChainId.new (name ++ ['-', '0', '1']) =
      Except.ok { id := name ++ ['-', '0', '1'], revision_number := 0 } ∧
    parse_chain_id_string (name ++ ['-', '0', '1']) =
      Except.error (IdentifierError.UnformattedRevisionNumber (name ++ ['-', '0', '1'])) ∧
    ChainId.new (name ++ ['-', '0']) =
      Except.ok { id := name ++ ['-', '0'], revision_number := 0 } ∧
    parse_chain_id_string (name ++ ['-', '0']) = Except.ok (name, 0) := by
  have hsp1 : rsplitOnceList '-' (name ++ ['-', '0', '1']) = some (name, ['0', '1']) :=
    rsplitOnceList_append '-' name ['0', '1'] (by decide)
  have hsp2 : rsplitOnceList '-' (name ++ ['-', '0']) = some (name, ['0']) :=
    rsplitOnceList_append '-' name ['0'] (by decide)
  have hperr : parse_chain_id_string (name ++ ['-', '0', '1']) =
      Except.error (IdentifierError.UnformattedRevisionNumber (name ++ ['-', '0', '1'])) := by
    simp [parse_chain_id_string, hsp1]
  have hpok : parse_chain_id_string (name ++ ['-', '0']) = Except.ok (name, 0) := by
    have hp0 : parse_u64 ['0'] = some 0 := by decide
    simp [parse_chain_id_string, hsp2, hp0]
  have hch1 : validate_identifier_chars (name ++ ['-', '0', '1']) = Except.ok () := by
    apply validate_identifier_chars_ok _ (by simp)
    intro c hc
    rcases List.mem_append.mp hc with h | h
    · exact hchars c h
    · have h2 : c = '-' ∨ c = '0' ∨ c = '1' := by simpa using h
      rcases h2 with h2 | h2 | h2 <;> (rw [h2]; decide)
  have hch2 : validate_identifier_chars (name ++ ['-', '0']) = Except.ok () := by
    apply validate_identifier_chars_ok _ (by simp)
    intro c hc
    rcases List.mem_append.mp hc with h | h
    · exact hchars c h
    · have h2 : c = '-' ∨ c = '0' := by simpa using h
      rcases h2 with h2 | h2 <;> (rw [h2]; decide)
  have hlen1 : validate_identifier_length (name ++ ['-', '0', '1']) 1 64 = Except.ok () := by
    rw [validate_identifier_length, if_pos]
    simp only [List.length_append, List.length_cons, List.length_nil]
    omega
  have hpl : validate_prefix_length name 1 64 = Except.ok () :=
    validate_prefix_length_ok name hmin hmax
  refine ⟨?_, hperr, ?_, hpok⟩
  · simp [ChainId.new, ChainId.from_str, hch1, hperr, hlen1]
  · simp [ChainId.new, ChainId.from_str, hch2, hpok, hpl]

theorem c5_leading_zero_witness :
    (ChainId.new ("chainA".toList ++ ['-', '0', '1']) =
      Except.ok { id := "chainA".toList ++ ['-', '0', '1'], revision_number := 0 } ∧
    parse_chain_id_string ("chainA".toList ++ ['-', '0', '1']) =
      Except.error (IdentifierError.UnformattedRevisionNumber ("chainA".toList ++ ['-', '0', '1'])) ∧
    ChainId.new ("chainA".toList ++ ['-', '0']) =
      Except.ok { id := "chainA".toList ++ ['-', '0'], revision_number := 0 } ∧
    parse_chain_id_string ("chainA".toList ++ ['-', '0']) = Except.ok ("chainA".toList, 0)) :=
  c5_leading_zero ("chainA".toList) (by decide) (by decide) (by decide)

/-- C10: whenever `increment_revision_number` returns an error, the
receiver is left completely unchanged (same string and same revision
number). -/
theorem c10_increment_error (c : ChainId) (e : IdentifierError)
    (h : (ChainId.increment_revision_number c).1 = Except.error e) :
    (ChainId.increment_revision_number c).2 = c := by
  cases hs : ChainId.split_chain_id c with
  | error e2 => simp [ChainId.increment_revision_number, hs]
  | ok pr =>
    obtain ⟨nm, r⟩ := pr
    cases ha : u64CheckedAdd c.revision_number 1 with
    | none => simp [ChainId.increment_revision_number, hs, ha]
    | some v => simp [ChainId.increment_revision_number, hs, ha] at h

theorem c10_increment_error_witness :
    (ChainId.increment_revision_number { id := "chainA".toList, revision_number := 0 }).2 =
      { id := "chainA".toList, revision_number := 0 } :=
  c10_increment_error _ (IdentifierError.UnformattedRevisionNumber ("chainA".toList)) (by decide)

/-- Height of the client subsystem. Modelled from the spec: a pair of
revision number and revision height, with the invariant that the
revision height is positive (the ics02 `Height` type is not among the
sources). -/
structure Height where
  revision_number : Nat
  revision_height : Nat
  deriving DecidableEq, Repr

/-- Raw protobuf height, both fields unconstrained. -/
structure RawHeight where
  revision_number : Nat
  revision_height : Nat
  deriving DecidableEq, Repr

/-- Modelled from the spec: the conversion of a raw height into a domain
`Height` fails exactly when the revision height is zero. -/
def height_try_from (raw : RawHeight) : Option Height :=
  if raw.revision_height = 0 then none
  else some { revision_number := raw.revision_number, revision_height := raw.revision_height }

/-- Conversion of a domain height back into its raw form. -/
def height_into_raw (h : Height) : RawHeight :=
  { revision_number := h.revision_number, revision_height := h.revision_height }

/-- Modelled from the spec: `PortId::from_str` validates the ICS-24
charset and a length between 2 and 128. -/
def port_id_from_str (s : Chars) : Except IdentifierError Chars :=
  match validate_identifier_chars s with
  | Except.error e => Except.error e
  | Except.ok _ =>
    match validate_identifier_length s 2 128 with
    | Except.error e => Except.error e
    | Except.ok _ => Except.ok s

/-- Modelled from the spec: `ChannelId::from_str` validates the ICS-24
charset and a length between 8 and 64 (pinned by the in-source tests:
`chshort` is rejected, `channel-34` accepted, a 65-char id rejected). -/
def channel_id_from_str (s : Chars) : Except IdentifierError Chars :=
  match validate_identifier_chars s with
  | Except.error e => Except.error e
  | Except.ok _ =>
    match validate_identifier_length s 8 64 with
    | Except.error e => Except.error e
    | Except.ok _ => Except.ok s

/-- Opaque byte strings (Rust `Vec<u8>`). -/
abbrev Bytes := List Nat

/-- Error of the commitment proof bytes conversion. -/
inductive ProofError where
  | EmptyProof
  deriving DecidableEq, Repr

/-- Conversion of raw bytes into `CommitmentProofBytes`, which rejects
an empty proof. -/
def commitment_proof_bytes_try_from (b : Bytes) : Except ProofError Bytes :=
  if b = [] then Except.error ProofError.EmptyProof else Except.ok b

/-- Error of the signer conversion. -/
inductive SignerError where
  | EmptySigner
  deriving DecidableEq, Repr

/-- Modelled from the spec: the signer is an opaque account string;
parsing rejects only an empty string. -/
def signer_from_str (s : Chars) : Except SignerError Chars :=
  if s = [] then Except.error SignerError.EmptySigner else Except.ok s

/-- Error type of the ics04 channel message conversions, with the
variants the verified fragments can produce. -/
inductive ChannelError where
  | Identifier (e : IdentifierError)
  | InvalidProof (e : ProofError)
  | MissingHeight
  | Signer (e : SignerError)
  deriving DecidableEq, Repr

/-- Raw protobuf form of `MsgChannelOpenAck`. -/
structure RawMsgChannelOpenAck where
  port_id : Chars
  channel_id : Chars
  counterparty_channel_id : Chars
  counterparty_version : Chars
  proof_try : Bytes
  proof_height : Option RawHeight
  signer : Chars
  deriving DecidableEq, Repr

/-- Domain form of `MsgChannelOpenAck` (`chan_open_ack.rs`). -/
structure MsgChannelOpenAck where
  port_id_on_a : Chars
  chan_id_on_a : Chars
  chan_id_on_b : Chars
  version_on_b : Chars
  proof_chan_end_on_b : Bytes
  proof_height_on_b : Height
  signer : Chars
  deriving DecidableEq, Repr

/-- The `TryFrom<RawMsgChannelOpenAck>` conversion: parse the port, the
two channel ids, take the version verbatim, convert the proof bytes,
convert the optional raw height (treating an absent or invalid height as
`MissingHeight`), and parse the signer, in source order. -/
def MsgChannelOpenAck.try_from (raw : RawMsgChannelOpenAck) :
    Except ChannelError MsgChannelOpenAck :=
  match port_id_from_str raw.port_id with
  | Except.error e => Except.error (ChannelError.Identifier e)
  | Except.ok p =>
    match channel_id_from_str raw.channel_id with
    | Except.error e => Except.error (ChannelError.Identifier e)
    | Except.ok ca =>
      match channel_id_from_str raw.counterparty_channel_id with
      | Except.error e => Except.error (ChannelError.Identifier e)
      | Except.ok cb =>
        match commitment_proof_bytes_try_from raw.proof_try with
        | Except.error e => Except.error (ChannelError.InvalidProof e)
        | Except.ok pr =>
          match raw.proof_height.bind height_try_from with
          | none => Except.error ChannelError.MissingHeight
          | some h =>
            match signer_from_str raw.signer with
            | Except.error e => Except.error (ChannelError.Signer e)
            | Except.ok sg =>
              Except.ok
                { port_id_on_a := p, chan_id_on_a := ca, chan_id_on_b := cb,
                  version_on_b := raw.counterparty_version, proof_chan_end_on_b := pr,
                  proof_height_on_b := h, signer := sg }

/-- The `From<MsgChannelOpenAck>` conversion into the raw form. -/
def MsgChannelOpenAck.into_raw (m : MsgChannelOpenAck) : RawMsgChannelOpenAck :=
  { port_id := m.port_id_on_a, channel_id := m.chan_id_on_a,
    counterparty_channel_id := m.chan_id_on_b, counterparty_version := m.version_on_b,
    proof_try := m.proof_chan_end_on_b,
    proof_height := some (height_into_raw m.proof_height_on_b),
    signer := m.signer }

/-- Raw protobuf form of `MsgChannelCloseInit`. -/
structure RawMsgChannelCloseInit where
  port_id : Chars
  channel_id : Chars
  signer : Chars
  deriving DecidableEq, Repr

/-- Domain form of `MsgChannelCloseInit` (`chan_close_init.rs`). -/
structure MsgChannelCloseInit where
  port_id_on_a : Chars
  chan_id_on_a : Chars
  signer : Chars
  deriving DecidableEq, Repr

/-- The `TryFrom<RawMsgChannelCloseInit>` conversion: parse the port and
the channel id; the signer conversion of this message is the infallible
`Into`. -/
def MsgChannelCloseInit.try_from (raw : RawMsgChannelCloseInit) :
    Except ChannelError MsgChannelCloseInit :=
  match port_id_from_str raw.port_id with
  | Except.error e => Except.error (ChannelError.Identifier e)
  | Except.ok p =>
    match channel_id_from_str raw.channel_id with
    | Except.error e => Except.error (ChannelError.Identifier e)
    | Except.ok ca =>
      Except.ok { port_id_on_a := p, chan_id_on_a := ca, signer := raw.signer }

/-- The `From<MsgChannelCloseInit>` conversion into the raw form. -/
def MsgChannelCloseInit.into_raw (m : MsgChannelCloseInit) : RawMsgChannelCloseInit :=
  { port_id := m.port_id_on_a, channel_id := m.chan_id_on_a, signer := m.signer }

/-- Invariants that the Rust domain type `MsgChannelOpenAck` maintains
by construction: its identifiers were validated, its proof is non-empty,
its height has a positive revision height, its signer is non-empty. -/
def MsgChannelOpenAckValid (m : MsgChannelOpenAck) : Prop :=
  port_id_from_str m.port_id_on_a = Except.ok m.port_id_on_a ∧
  channel_id_from_str m.chan_id_on_a = Except.ok m.chan_id_on_a ∧
  channel_id_from_str m.chan_id_on_b = Except.ok m.chan_id_on_b ∧
  m.proof_chan_end_on_b ≠ [] ∧
  m.proof_height_on_b.revision_height ≠ 0 ∧
  m.signer ≠ []

/-- Invariants that the Rust domain type `MsgChannelCloseInit` maintains
by construction. -/
def MsgChannelCloseInitValid (m : MsgChannelCloseInit) : Prop :=
  port_id_from_str m.port_id_on_a = Except.ok m.port_id_on_a ∧
  channel_id_from_str m.chan_id_on_a = Except.ok m.chan_id_on_a

/-- C6: for every valid domain `MsgChannelOpenAck` and every valid
domain `MsgChannelCloseInit`, converting to the raw protobuf form and
back succeeds and returns the original message. -/
theorem c6_msg_roundtrip :
    (∀ m : MsgChannelOpenAck, MsgChannelOpenAckValid m →
      MsgChannelOpenAck.try_from (MsgChannelOpenAck.into_raw m) = Except.ok m) ∧
    (∀ m : MsgChannelCloseInit, MsgChannelCloseInitValid m →
      MsgChannelCloseInit.try_from (MsgChannelCloseInit.into_raw m) = Except.ok m) := by
  constructor
  · intro m hm
    obtain ⟨h1, h2, h3, h4, h5, h6⟩ := hm
    have hh : height_try_from (height_into_raw m.proof_height_on_b) = some m.proof_height_on_b := by
      rw [height_try_from, height_into_raw, if_neg h5]
    have hs : signer_from_str m.signer = Except.ok m.signer := by
      rw [signer_from_str, if_neg h6]
    have hp : commitment_proof_bytes_try_from m.proof_chan_end_on_b =
        Except.ok m.proof_chan_end_on_b := by
      rw [commitment_proof_bytes_try_from, if_neg h4]
    simp [MsgChannelOpenAck.try_from, MsgChannelOpenAck.into_raw, h1, h2, h3, hp, hh, hs]
  · intro m hm
    obtain ⟨h1, h2⟩ := hm
    simp [MsgChannelCloseInit.try_from, MsgChannelCloseInit.into_raw, h1, h2]

theorem c6_msg_roundtrip_witness :
    MsgChannelOpenAck.try_from
        (MsgChannelOpenAck.into_raw
          { port_id_on_a := "transfer".toList, chan_id_on_a := "channel-0".toList,
            chan_id_on_b := "channel-1".toList, version_on_b := "ics20-1".toList,
            proof_chan_end_on_b := [1, 2], proof_height_on_b := { revision_number := 0, revision_height := 10 },
            signer := "cosmos1abc".toList }) =
      Except.ok
        { port_id_on_a := "transfer".toList, chan_id_on_a := "channel-0".toList,
          chan_id_on_b := "channel-1".toList, version_on_b := "ics20-1".toList,
          proof_chan_end_on_b := [1, 2], proof_height_on_b := { revision_number := 0, revision_height := 10 },
          signer := "cosmos1abc".toList } ∧
    MsgChannelCloseInit.try_from
        (MsgChannelCloseInit.into_raw
          { port_id_on_a := "transfer".toList, chan_id_on_a := "channel-0".toList,
            signer := "cosmos1abc".toList }) =
      Except.ok
        { port_id_on_a := "transfer".toList, chan_id_on_a := "channel-0".toList,
          signer := "cosmos1abc".toList } :=
  ⟨c6_msg_roundtrip.1 _ ⟨by decide, by decide, by decide, by decide, by decide, by decide⟩,
    c6_msg_roundtrip.2 _ ⟨by decide, by decide⟩⟩

/-- C7: given that the other fields of a raw `MsgChannelOpenAck` parse,
the conversion returns `MissingHeight` whenever the raw proof height is
absent or is the zero height, and succeeds (carrying the given height)
whenever the raw revision height is positive. -/
theorem c7_missing_height (raw : RawMsgChannelOpenAck)
    (hp : ∃ p, port_id_from_str raw.port_id = Except.ok p)
    (hca : ∃ ca, channel_id_from_str raw.channel_id = Except.ok ca)
    (hcb : ∃ cb, channel_id_from_str raw.counterparty_channel_id = Except.ok cb)
    (hpr : raw.proof_try ≠ [])
    (hsg : raw.signer ≠ []) :
    ((raw.proof_height = none ∨
        raw.proof_height = some { revision_number := 0, revision_height := 0 }) →
      MsgChannelOpenAck.try_from raw = Except.error ChannelError.MissingHeight) ∧
    (∀ rh : RawHeight, raw.proof_height = some rh → rh.revision_height ≠ 0 →
      ∃ m, MsgChannelOpenAck.try_from raw = Except.ok m ∧
        m.proof_height_on_b =
          { revision_number := rh.revision_number, revision_height := rh.revision_height }) := by
  obtain ⟨p, hp⟩ := hp
  obtain ⟨ca, hca⟩ := hca
  obtain ⟨cb, hcb⟩ := hcb
  have hprr : commitment_proof_bytes_try_from raw.proof_try = Except.ok raw.proof_try := by
    rw [commitment_proof_bytes_try_from, if_neg hpr]
  have hsgr : signer_from_str raw.signer = Except.ok raw.signer := by
    rw [signer_from_str, if_neg hsg]
  constructor
  · intro hh
    have hnone : raw.proof_height.bind height_try_from = none := by
      rcases hh with h | h
      · rw [h]; rfl
      · rw [h]
        simp [height_try_from]
    simp [MsgChannelOpenAck.try_from, hp, hca, hcb, hprr, hnone]
  · intro rh hh hpos
    have hsome : raw.proof_height.bind height_try_from =
        some { revision_number := rh.revision_number, revision_height := rh.revision_height } := by
      rw [hh]
      simp [height_try_from, hpos]
    refine Exists.intro
      { port_id_on_a := p, chan_id_on_a := ca, chan_id_on_b := cb,
        version_on_b := raw.counterparty_version, proof_chan_end_on_b := raw.proof_try,
        proof_height_on_b :=
          { revision_number := rh.revision_number, revision_height := rh.revision_height },
        signer := raw.signer }
      (And.intro ?_ rfl)
    simp [MsgChannelOpenAck.try_from, hp, hca, hcb, hprr, hsome, hsgr]

theorem c7_missing_height_witness :
    MsgChannelOpenAck.try_from
        { port_id := "transfer".toList, channel_id := "channel-0".toList,
          counterparty_channel_id := "channel-1".toList, counterparty_version := [],
          proof_try := [1], proof_height := some { revision_number := 0, revision_height := 0 },
          signer := "cosmos1abc".toList } =
      Except.error ChannelError.MissingHeight :=
  (c7_missing_height _ ⟨"transfer".toList, by decide⟩ ⟨"channel-0".toList, by decide⟩
    ⟨"channel-1".toList, by decide⟩ (by decide) (by decide)).1 (Or.inr rfl)

/-- Client identifiers, opaque at the connection layer. -/
abbrev ClientId := Chars

/-- Connection identifiers, opaque at the connection layer. -/
abbrev ConnectionId := Chars

/-- Commitment prefixes (counterparty path prefixes), opaque bytes. -/
abbrev CommitmentPfx := Bytes

/-- Commitment roots, opaque bytes. -/
abbrev CommitmentRoot := Bytes

/-- Errors of the client subsystem, opaque at the connection layer. -/
abbrev ClientError := Chars

/-- Connection versions, opaque at this layer. -/
abbrev ConnVersion := Chars

/-- The four states of a `ConnectionEnd` (ics03 `State`). -/
inductive ConnState where
  | Uninitialized
  | Init
  | TryOpen
  | Open
  deriving DecidableEq, Repr

/-- The `Counterparty` record of a `ConnectionEnd` (the field named
`prefix` in the source is called `pfx` here). -/
structure ConnCounterparty where
  client_id : ClientId
  connection_id : Option ConnectionId
  pfx : CommitmentPfx
  deriving DecidableEq, Repr

/-- The ics03 `ConnectionEnd` record. -/
structure ConnectionEnd where
  state : ConnState
  client_id : ClientId
  counterparty : ConnCounterparty
  versions : List ConnVersion
  delay_period : Nat
  deriving DecidableEq, Repr

/-- Error type of the ics03 connection handlers, with the variants the
verified fragment can produce. -/
inductive ConnError where
  | connection_not_found (connection_id : ConnectionId)
  | connection_mismatch (connection_id : ConnectionId)
  | invalid_counterparty
  | verify_connection_state (e : ClientError)
  | client_not_found (client_id : ClientId)
  | consensus_state_not_found (client_id : ClientId) (h : Height)
  | other (description : Chars)
  deriving DecidableEq, Repr

/-- The capability of a client state used by the `OpenConfirm` handler:
`verify_connection_state` checks a membership proof of a counterparty
connection end (polymorphic per client type, hence a function field). -/
structure ClientState where
  verify_connection_state :
    Height → CommitmentPfx → Bytes → CommitmentRoot → ConnectionId → ConnectionEnd →
      Except ClientError Unit

/-- A consensus state, of which the handler only uses the root. -/
structure ConsensusState where
  root : CommitmentRoot

/-- The read-only `ConnectionReader` context the handler runs against
(`&dyn ConnectionReader` in the source, so the handler cannot write). -/
structure ConnectionReader where
  connection_end : ConnectionId → Except ConnError ConnectionEnd
  client_state : ClientId → Except ConnError ClientState
  client_consensus_state : ClientId → Height → Except ConnError ConsensusState
  commitment_pfx : CommitmentPfx

/-- The domain message `MsgConnectionOpenConfirm`. -/
structure MsgConnectionOpenConfirm where
  connection_id : ConnectionId
  proof_connection_end : Bytes
  proofs_height : Height
  signer : Chars

/-- Events emitted by the verified fragment (the `Attributes` record of
the source carries an optional connection id; its remaining attributes
are defaulted and unused here). -/
inductive IbcEvent where
  | OpenConfirmConnection (connection_id : Option ConnectionId)
  deriving DecidableEq, Repr

/-- Whether the handler reuses an existing connection id or generated a
fresh one. -/
inductive ConnectionIdState where
  | Generated
  | Reused
  deriving DecidableEq, Repr

/-- The result record produced by the connection handlers. -/
structure ConnectionResult where
  connection_id : ConnectionId
  connection_id_state : ConnectionIdState
  connection_end : ConnectionEnd
  deriving DecidableEq, Repr

/-- The output assembled by the handler builder: a result, the emitted
events and the log lines. -/
structure HandlerOutput (R : Type) where
  result : R
  events : List IbcEvent
  log : List Chars

/-- The expected counterparty connection end the handler constructs: it
must be `Open`, name our client and connection id as its counterparty
together with our commitment prefix, and carry our versions and delay
period. -/
def expected_conn_end (ctx : ConnectionReader) (msg : MsgConnectionOpenConfirm)
    (self_end : ConnectionEnd) : ConnectionEnd :=
  { state := ConnState.Open
    client_id := self_end.counterparty.client_id
    counterparty :=
      { client_id := self_end.client_id
        connection_id := some msg.connection_id
        pfx := ctx.commitment_pfx }
    versions := self_end.versions
    delay_period := self_end.delay_period }

/-- The `process` function of `conn_open_confirm.rs`: load the
connection end, require it to be in `TryOpen`, verify the proof that the
counterparty end is `Open`, then return the end with its state set to
`Open` together with one `OpenConfirmConnection` event. -/
def conn_open_confirm_process (ctx : ConnectionReader) (msg : MsgConnectionOpenConfirm) :
    Except ConnError (HandlerOutput ConnectionResult) :=
  match ctx.connection_end msg.connection_id with
  | Except.error e => Except.error e
  | Except.ok self_end =>
    if self_end.state ≠ ConnState.TryOpen then
      Except.error (ConnError.connection_mismatch msg.connection_id)
    else
      match ctx.client_state self_end.client_id with
      | Except.error e => Except.error e
      | Except.ok client_state =>
        match ctx.client_consensus_state self_end.client_id msg.proofs_height with
        | Except.error e => Except.error e
        | Except.ok consensus_state =>
          match self_end.counterparty.connection_id with
          | none => Except.error ConnError.invalid_counterparty
          | some counterparty_connection_id =>
            match client_state.verify_connection_state msg.proofs_height
                self_end.counterparty.pfx msg.proof_connection_end consensus_state.root
                counterparty_connection_id (expected_conn_end ctx msg self_end) with
            | Except.error e => Except.error (ConnError.verify_connection_state e)
            | Except.ok _ =>
              Except.ok
                { result :=
                    { connection_id := msg.connection_id
                      connection_id_state := ConnectionIdState.Reused
                      connection_end := { self_end with state := ConnState.Open } }
                  events := [IbcEvent.OpenConfirmConnection (some msg.connection_id)]
                  log := ["success: conn_open_confirm verification passed".toList] }

/-- C1: when the referenced connection end exists but is not in state
`TryOpen`, the handler returns the `ConnectionMismatch` error carrying
the connection id of the message. The handler runs against the
read-only `ConnectionReader` (it returns its writes only inside a
successful `HandlerOutput`), so on this error path no store write and no
event can occur. -/
theorem c1_open_confirm_wrong_state (ctx : ConnectionReader) (msg : MsgConnectionOpenConfirm)
    (ce : ConnectionEnd) (hce : ctx.connection_end msg.connection_id = Except.ok ce)
    (hst : ce.state ≠ ConnState.TryOpen) :
    conn_open_confirm_process ctx msg =
      Except.error (ConnError.connection_mismatch msg.connection_id) := by
  simp only [conn_open_confirm_process, hce]
  rw [if_pos hst]

/-- Connection end in state `Init` used by the C1 witness context. -/
def c1_conn_end : ConnectionEnd :=
  { state := ConnState.Init
    client_id := "mock_clientid".toList
    counterparty :=
      { client_id := "mock_clientid".toList
        connection_id := some ("connection-3".toList)
        pfx := [105, 98, 99] }
    versions := ["1".toList]
    delay_period := 0 }

/-- Context holding only `connection-3` in state `Init`, for C1. -/
def c1_ctx : ConnectionReader :=
  { connection_end := fun cid =>
      if cid = "connection-3".toList then Except.ok c1_conn_end
      else Except.error (ConnError.connection_not_found cid)
    client_state := fun cid => Except.error (ConnError.client_not_found cid)
    client_consensus_state := fun cid h => Except.error (ConnError.consensus_state_not_found cid h)
    commitment_pfx := [105, 98, 99] }

/-- Message submitting `OpenConfirm` for `connection-3`, for C1. -/
def c1_msg : MsgConnectionOpenConfirm :=
  { connection_id := "connection-3".toList
    proof_connection_end := [1]
    proofs_height := { revision_number := 0, revision_height := 10 }
    signer := "cosmos1abc".toList }

theorem c1_open_confirm_wrong_state_witness :
    conn_open_confirm_process c1_ctx c1_msg =
      Except.error (ConnError.connection_mismatch ("connection-3".toList)) :=
  c1_open_confirm_wrong_state c1_ctx c1_msg c1_conn_end (by decide) (by decide)

/-- C2: when the stored connection end is in `TryOpen` with a known
counterparty connection id and the client accepts the proof that the
counterparty end (built by `expected_conn_end`: `Open`, our client and
connection id as counterparty, our commitment prefix, our versions and
delay period) is `Open`, the handler succeeds, returns the same
connection end with only its state changed to `Open`, and emits exactly
one `OpenConfirmConnection` event. -/
theorem c2_open_confirm_success (ctx : ConnectionReader) (msg : MsgConnectionOpenConfirm)
    (ce : ConnectionEnd) (cs : ClientState) (cons : ConsensusState) (cpid : ConnectionId)
    (hce : ctx.connection_end msg.connection_id = Except.ok ce)
    (hst : ce.state = ConnState.TryOpen)
    (hcp : ce.counterparty.connection_id = some cpid)
    (hcs : ctx.client_state ce.client_id = Except.ok cs)
    (hcons : ctx.client_consensus_state ce.client_id msg.proofs_height = Except.ok cons)
    (hver : cs.verify_connection_state msg.proofs_height ce.counterparty.pfx
        msg.proof_connection_end cons.root cpid (expected_conn_end ctx msg ce) =
      Except.ok ()) :
    conn_open_confirm_process ctx msg =
      Except.ok
        { result :=
            { connection_id := msg.connection_id
              connection_id_state := ConnectionIdState.Reused
              connection_end := { ce with state := ConnState.Open } }
          events := [IbcEvent.OpenConfirmConnection (some msg.connection_id)]
          log := ["success: conn_open_confirm verification passed".toList] } := by
  simp only [conn_open_confirm_process, hce]
  rw [if_neg (by simp [hst])]
  simp only [hcs, hcons, hcp, hver]

/-- Connection end in state `TryOpen` used by the C2 witness context. -/
def c2_conn_end : ConnectionEnd :=
  { state := ConnState.TryOpen
    client_id := "mock_clientid".toList
    counterparty :=
      { client_id := "mock_clientid".toList
        connection_id := some ("connection-3".toList)
        pfx := [105, 98, 99] }
    versions := ["1".toList]
    delay_period := 0 }

/-- Context for the C2 witness: `connection-3` in `TryOpen`, a client
whose proof verification accepts, a consensus state at every height. -/
def c2_ctx : ConnectionReader :=
  { connection_end := fun cid =>
      if cid = "connection-3".toList then Except.ok c2_conn_end
      else Except.error (ConnError.connection_not_found cid)
    client_state := fun _ =>
      Except.ok { verify_connection_state := fun _ _ _ _ _ _ => Except.ok () }
    client_consensus_state := fun _ _ => Except.ok { root := [0] }
    commitment_pfx := [105, 98, 99] }

/-- Message submitting `OpenConfirm` for `connection-3`, for C2. -/
def c2_msg : MsgConnectionOpenConfirm :=
  { connection_id := "connection-3".toList
    proof_connection_end := [1]
    proofs_height := { revision_number := 0, revision_height := 10 }
    signer := "cosmos1abc".toList }

theorem c2_open_confirm_success_witness :
    conn_open_confirm_process c2_ctx c2_msg =
      Except.ok
        { result :=
            { connection_id := "connection-3".toList
              connection_id_state := ConnectionIdState.Reused
              connection_end := { c2_conn_end with state := ConnState.Open } }
          events := [IbcEvent.OpenConfirmConnection (some ("connection-3".toList))]
          log := ["success: conn_open_confirm verification passed".toList] } :=
  c2_open_confirm_success c2_ctx c2_msg c2_conn_end
    { verify_connection_state := fun _ _ _ _ _ _ => Except.ok () } { root := [0] }
    ("connection-3".toList) (by decide) (by decide) (by decide) rfl rfl rfl

/-- Port identifiers, opaque at the query layer. -/
abbrev PortId := Chars

/-- Channel identifiers, opaque at the query layer. -/
abbrev ChannelId := Chars

/-- Packet sequence numbers. -/
abbrev Sequence := Nat

/-- Store heights of the basecoin store: the pending write-through view
or a committed block height. -/
inductive StoreHeight where
  | Pending
  | Block (h : Nat)
  deriving DecidableEq, Repr

/-- A typed store binding structured path keys to values, with the
pending view (an association list) and the committed historical views
indexed by block height. -/
structure TypedStore (K V : Type) where
  pending : List (K × V)
  committed : Nat → List (K × V)

/-- The `get` operation of a typed store at a given store height. -/
def storeGet {K V : Type} [DecidableEq K] (s : TypedStore K V) (h : StoreHeight) (k : K) :
    Option V :=
  match h with
  | StoreHeight.Pending => s.pending.lookup k
  | StoreHeight.Block n => (s.committed n).lookup k

/-- The `get_keys(prefix)` operation: the keys present in the pending
state that match the prefix. The string prefix of the source is
rendered here as a predicate on structured keys: ICS-24 identifiers
cannot contain the path separator, so a path-prefix match is exactly a
fieldwise match on the leading path components, and the subsequent
`Path::try_into` filter of the source (which discards keys belonging to
other stores) is a no-op on a typed store. -/
def storeKeys {K V : Type} (s : TypedStore K V) (p : K → Bool) : List K :=
  (s.pending.map Prod.fst).filter p

/-- Path key of a client state: `clients/{client_id}/clientState`. -/
structure ClientStatePath where
  client_id : ClientId
  deriving DecidableEq, Repr

/-- Path key of a consensus state:
`clients/{client_id}/consensusStates/{revision}-{height}`. -/
structure ClientConsensusStatePath where
  client_id : ClientId
  revision_number : Nat
  revision_height : Nat
  deriving DecidableEq, Repr

/-- Path key of a connection end: `connections/{connection_id}`. -/
structure ConnectionPath where
  connection_id : ConnectionId
  deriving DecidableEq, Repr

/-- Path key of a channel end:
`channelEnds/ports/{port_id}/channels/{channel_id}`. -/
structure ChannelEndPath where
  port_id : PortId
  channel_id : ChannelId
  deriving DecidableEq, Repr

/-- Path key of a packet commitment:
`commitments/ports/{p}/channels/{c}/sequences/{seq}`. -/
structure CommitmentPath where
  port_id : PortId
  channel_id : ChannelId
  sequence : Sequence
  deriving DecidableEq, Repr

/-- Path key of a packet acknowledgement:
`acks/ports/{p}/channels/{c}/sequences/{seq}`. -/
structure AckPath where
  port_id : PortId
  channel_id : ChannelId
  sequence : Sequence
  deriving DecidableEq, Repr

/-- Path key of a packet receipt:
`receipts/ports/{p}/channels/{c}/sequences/{seq}`. -/
structure ReceiptPath where
  port_id : PortId
  channel_id : ChannelId
  sequence : Sequence
  deriving DecidableEq, Repr

/-- A packet receipt value (the source `Receipt::Ok` marker). -/
inductive ReceiptV where
  | Ok
  deriving DecidableEq, Repr

/-- The typed stores of the mock context (`MockGenericContext`): client
states and consensus states are opaque values at the query layer, as
are channel ends. -/
structure IbcStore where
  client_state_store : TypedStore ClientStatePath Chars
  consensus_state_store : TypedStore ClientConsensusStatePath Chars
  connection_end_store : TypedStore ConnectionPath ConnectionEnd
  channel_end_store : TypedStore ChannelEndPath Chars
  packet_commitment_store : TypedStore CommitmentPath Bytes
  packet_ack_store : TypedStore AckPath Bytes
  packet_receipt_store : TypedStore ReceiptPath ReceiptV

/-- Error type of the query context, with the variants the verified
queries can produce. -/
inductive ContextError where
  | ClientStateNotFound (client_id : ClientId)
  | ConsensusStateNotFound (client_id : ClientId) (height : Height)
  | InvalidHeight
  | ConnectionNotFound (connection_id : ConnectionId)
  | ChannelNotFound (port_id : PortId) (channel_id : ChannelId)
  | PacketCommitmentNotFound (sequence : Sequence)
  | PacketAcknowledgementNotFound (sequence : Sequence)
  deriving DecidableEq, Repr

/-- Modelled from the spec: `Height::new` rejects a zero revision
height. -/
def height_new (rn rh : Nat) : Except ContextError Height :=
  if rh = 0 then Except.error ContextError.InvalidHeight
  else Except.ok { revision_number := rn, revision_height := rh }

/-- The `get_packet_commitment` method of the validation context: a
pending-view read that errors when the commitment is absent. -/
def get_packet_commitment (s : IbcStore) (k : CommitmentPath) : Except ContextError Bytes :=
  match storeGet s.packet_commitment_store StoreHeight.Pending k with
  | some v => Except.ok v
  | none => Except.error (ContextError.PacketCommitmentNotFound k.sequence)

/-- The `get_packet_acknowledgement` method of the validation context. -/
def get_packet_acknowledgement (s : IbcStore) (k : AckPath) : Except ContextError Bytes :=
  match storeGet s.packet_ack_store StoreHeight.Pending k with
  | some v => Except.ok v
  | none => Except.error (ContextError.PacketAcknowledgementNotFound k.sequence)

/-- The `PacketState` record returned by the packet queries. -/
structure PacketState where
  seq : Sequence
  port_id : PortId
  chan_id : ChannelId
  data : Bytes
  deriving DecidableEq, Repr

/-- The `client_states` query: walk the keys under `clients`, read each
client state from the pending view. -/
def query_client_states (s : IbcStore) : Except ContextError (List (ClientId × Chars)) :=
  (storeKeys s.client_state_store (fun _ => true)).mapM (fun k =>
    match storeGet s.client_state_store StoreHeight.Pending k with
    | some v => Except.ok (k.client_id, v)
    | none => Except.error (ContextError.ClientStateNotFound k.client_id))

/-- The `consensus_states` query: walk the consensus-state keys of the
client, build each height (rejecting zero heights), read each consensus
state from the pending view. -/
def query_consensus_states (s : IbcStore) (client_id : ClientId) :
    Except ContextError (List (Height × Chars)) :=
  (storeKeys s.consensus_state_store (fun k => k.client_id == client_id)).mapM (fun k =>
    match height_new k.revision_number k.revision_height with
    | Except.error e => Except.error e
    | Except.ok h =>
      match storeGet s.consensus_state_store StoreHeight.Pending k with
      | some v => Except.ok (h, v)
      | none => Except.error (ContextError.ConsensusStateNotFound k.client_id h))

/-- The `consensus_state_heights` query. -/
def query_consensus_state_heights (s : IbcStore) (client_id : ClientId) :
    Except ContextError (List Height) :=
  (storeKeys s.consensus_state_store (fun k => k.client_id == client_id)).mapM (fun k =>
    height_new k.revision_number k.revision_height)

/-- The `connection_ends` query: walk the keys under `connections`,
read each connection end from the pending view. -/
def query_connection_ends (s : IbcStore) :
    Except ContextError (List (ConnectionId × ConnectionEnd)) :=
  (storeKeys s.connection_end_store (fun _ => true)).mapM (fun k =>
    match storeGet s.connection_end_store StoreHeight.Pending k with
    | some v => Except.ok (k.connection_id, v)
    | none => Except.error (ContextError.ConnectionNotFound k.connection_id))

/-- The `channel_ends` query: walk the keys under `channelEnds`, read
each channel end from the pending view. -/
def query_channel_ends (s : IbcStore) :
    Except ContextError (List (PortId × ChannelId × Chars)) :=
  (storeKeys s.channel_end_store (fun _ => true)).mapM (fun k =>
    match storeGet s.channel_end_store StoreHeight.Pending k with
    | some v => Except.ok (k.port_id, k.channel_id, v)
    | none => Except.error (ContextError.ChannelNotFound k.port_id k.channel_id))

/-- The `packet_commitments` query: walk the commitment keys of the
channel, keep those present in the pending view, and read each into a
`PacketState`. -/
def query_packet_commitments (s : IbcStore) (cep : ChannelEndPath) :
    Except ContextError (List PacketState) :=
  (((storeKeys s.packet_commitment_store
        (fun k => k.port_id == cep.port_id && k.channel_id == cep.channel_id)).filter
      (fun k => (storeGet s.packet_commitment_store StoreHeight.Pending k).isSome)).mapM
    (fun k =>
      match get_packet_commitment s k with
      | Except.error e => Except.error e
      | Except.ok v =>
        Except.ok { seq := k.sequence, port_id := k.port_id, chan_id := k.channel_id, data := v }))

/-- The `packet_acknowledgements` query: with an empty sequence list,
walk all ack keys of the channel; otherwise build the ack path of each
given sequence; keep the paths present in the pending view and read each
into a `PacketState`. -/
def query_packet_acknowledgements (s : IbcStore) (cep : ChannelEndPath)
    (sequences : List Sequence) : Except ContextError (List PacketState) :=
  let collected_paths : List AckPath :=
    if sequences.length = 0 then
      storeKeys s.packet_ack_store
        (fun k => k.port_id == cep.port_id && k.channel_id == cep.channel_id)
    else
      sequences.map (fun q =>
        { port_id := cep.port_id, channel_id := cep.channel_id, sequence := q })
  ((collected_paths.filter
      (fun k => (storeGet s.packet_ack_store StoreHeight.Pending k).isSome)).mapM
    (fun k =>
      match get_packet_acknowledgement s k with
      | Except.error e => Except.error e
      | Except.ok v =>
        Except.ok { seq := k.sequence, port_id := k.port_id, chan_id := k.channel_id, data := v }))

/-- The `unreceived_packets` query: the given sequences whose receipt
path is absent from the pending view. -/
def query_unreceived_packets (s : IbcStore) (cep : ChannelEndPath)
    (sequences : List Sequence) : Except ContextError (List Sequence) :=
  Except.ok
    (((sequences.map (fun q =>
          ({ port_id := cep.port_id, channel_id := cep.channel_id, sequence := q } :
            ReceiptPath))).filter
        (fun k => (storeGet s.packet_receipt_store StoreHeight.Pending k).isNone)).map
      (fun k => k.sequence))

/-- The `unreceived_acks` query: with an empty sequence list, walk all
commitment keys of the channel; otherwise build the commitment path of
each given sequence; return the sequences of the paths whose commitment
is present in the pending view. -/
def query_unreceived_acks (s : IbcStore) (cep : ChannelEndPath)
    (sequences : List Sequence) : Except ContextError (List Sequence) :=
  let collected_paths : List CommitmentPath :=
    if sequences.length = 0 then
      storeKeys s.packet_commitment_store
        (fun k => k.port_id == cep.port_id && k.channel_id == cep.channel_id)
    else
      sequences.map (fun q =>
        { port_id := cep.port_id, channel_id := cep.channel_id, sequence := q })
  Except.ok
    ((collected_paths.filter
        (fun k => (storeGet s.packet_commitment_store StoreHeight.Pending k).isSome)).map
      (fun k => k.sequence))

theorem filter_map_comm {α β : Type} (f : α → β) (p : β → Bool) (l : List α) :
    (l.map f).filter p = (l.filter (fun a => p (f a))).map f := by
  induction l with
  | nil => rfl
  | cons a t ih =>
    simp only [List.map_cons, List.filter_cons]
    cases hp : p (f a) <;> simp [hp, ih]

theorem lookup_isSome_iff {K V : Type} [DecidableEq K] (l : List (K × V)) (k : K) :
    (l.lookup k).isSome = true ↔ k ∈ l.map Prod.fst := by
  induction l with
  | nil => simp [List.lookup]
  | cons kv t ih =>
    by_cases h : k = kv.1
    · simp [List.lookup, h]
    · have hb : (k == kv.1) = false := by simp [h]
      simp [List.lookup, hb, ih, h]

/-- C9: with a non-empty sequence list, `unreceived_acks` returns
exactly those input sequences whose packet commitment is present in the
local store at the commitment path of the channel; with an empty list,
it returns the sequences of all commitments stored under the commitment
prefix of the channel. -/
theorem c9_unreceived_acks (s : IbcStore) (cep : ChannelEndPath) (sequences : List Sequence) :
    (sequences ≠ [] →
      query_unreceived_acks s cep sequences =
        Except.ok (sequences.filter (fun q =>
          (storeGet s.packet_commitment_store StoreHeight.Pending
            { port_id := cep.port_id, channel_id := cep.channel_id, sequence := q }).isSome))) ∧
    (sequences = [] → ∀ r : List Sequence,
      query_unreceived_acks s cep sequences = Except.ok r →
      ∀ q : Sequence, q ∈ r ↔
        (storeGet s.packet_commitment_store StoreHeight.Pending
          { port_id := cep.port_id, channel_id := cep.channel_id, sequence := q }).isSome =
          true) := by
  constructor
  · intro hne
    have hlen : ¬ (sequences.length = 0) := by
      cases sequences with
      | nil => exact absurd rfl hne
      | cons a t => simp
    simp only [query_unreceived_acks, if_neg hlen]
    rw [filter_map_comm, List.map_map]
    have hcomp : ((fun k : CommitmentPath => k.sequence) ∘ fun q : Sequence =>
        ({ port_id := cep.port_id, channel_id := cep.channel_id, sequence := q } :
          CommitmentPath)) = fun q => q := by
      funext q
      rfl
    rw [hcomp, List.map_id']
  · intro hemp r hr q
    subst hemp
    simp only [query_unreceived_acks, List.length_nil, if_true, Except.ok.injEq] at hr
    subst hr
    constructor
    · intro hq
      rcases List.mem_map.mp hq with ⟨k, hk, hkq⟩
      rcases List.mem_filter.mp hk with ⟨hk1, hk2⟩
      rcases List.mem_filter.mp hk1 with ⟨_, hk4⟩
      have hpc : k.port_id = cep.port_id ∧ k.channel_id = cep.channel_id := by
        simpa using hk4
      have hk5 : k = { port_id := cep.port_id, channel_id := cep.channel_id, sequence := q } := by
        obtain ⟨kp, kc, kq⟩ := k
        simp only at hkq hpc
        rw [← hkq, ← hpc.1, ← hpc.2]
      rw [← hk5]
      exact hk2
    · intro hpres
      have hmem : ({ port_id := cep.port_id, channel_id := cep.channel_id, sequence := q } :
          CommitmentPath) ∈ s.packet_commitment_store.pending.map Prod.fst := by
        have := hpres
        simp only [storeGet] at this
        exact (lookup_isSome_iff s.packet_commitment_store.pending _).mp this
      refine List.mem_map.mpr ⟨_, List.mem_filter.mpr ⟨List.mem_filter.mpr ⟨hmem, ?_⟩, hpres⟩, rfl⟩
      simp

/-- Store for the C9 witness: one commitment at sequence 1 of channel
`channel-0`. -/
def c9_store : IbcStore :=
  { client_state_store := { pending := [], committed := fun _ => [] }
    consensus_state_store := { pending := [], committed := fun _ => [] }
    connection_end_store := { pending := [], committed := fun _ => [] }
    channel_end_store := { pending := [], committed := fun _ => [] }
    packet_commitment_store :=
      { pending :=
          [({ port_id := "transfer".toList, channel_id := "channel-0".toList, sequence := 1 },
            [7])]
        committed := fun _ => [] }
    packet_ack_store := { pending := [], committed := fun _ => [] }
    packet_receipt_store := { pending := [], committed := fun _ => [] } }

theorem c9_unreceived_acks_witness :
    query_unreceived_acks c9_store
        { port_id := "transfer".toList, channel_id := "channel-0".toList } [1, 2] =
      Except.ok ([1, 2].filter (fun q =>
        (storeGet c9_store.packet_commitment_store StoreHeight.Pending
          { port_id := "transfer".toList, channel_id := "channel-0".toList,
            sequence := q }).isSome)) :=
  (c9_unreceived_acks c9_store
    { port_id := "transfer".toList, channel_id := "channel-0".toList } [1, 2]).1 (by decide)

/-- Store with an empty committed history and one pending commitment,
for the C8 counterexample. -/
def c8_store : IbcStore := c9_store

/-- The same store with the pending commitment removed; every committed
view is untouched (it is the very same function). -/
def c8_store_alt : IbcStore :=
  { c8_store with
    packet_commitment_store := { c8_store.packet_commitment_store with pending := [] } }

/-- C8 counterexample: the two stores agree on every committed view of
every typed store, yet the `unreceived_acks` query answers differently
on them, because the query reads the pending view (`StoreHeight::
Pending` in the source), not a committed height. -/
theorem c8_queries_counterexample :
    (c8_store.client_state_store.committed = c8_store_alt.client_state_store.committed ∧
      c8_store.consensus_state_store.committed = c8_store_alt.consensus_state_store.committed ∧
      c8_store.connection_end_store.committed = c8_store_alt.connection_end_store.committed ∧
      c8_store.channel_end_store.committed = c8_store_alt.channel_end_store.committed ∧
      c8_store.packet_commitment_store.committed =
        c8_store_alt.packet_commitment_store.committed ∧
      c8_store.packet_ack_store.committed = c8_store_alt.packet_ack_store.committed ∧
      c8_store.packet_receipt_store.committed = c8_store_alt.packet_receipt_store.committed) ∧
    query_unreceived_acks c8_store
        { port_id := "transfer".toList, channel_id := "channel-0".toList } [1] ≠
      query_unreceived_acks c8_store_alt
        { port_id := "transfer".toList, channel_id := "channel-0".toList } [1] := by
  refine ⟨⟨rfl, rfl, rfl, rfl, rfl, rfl, rfl⟩, ?_⟩
  decide

/-- C8 (amended): every verified query of the `QueryContext`
implementation reads only the pending view: two stores with equal
pending views give equal query results, whatever their committed
histories hold. -/
theorem c8_queries_read_pending (A B : IbcStore)
    (h1 : A.client_state_store.pending = B.client_state_store.pending)
    (h2 : A.consensus_state_store.pending = B.consensus_state_store.pending)
    (h3 : A.connection_end_store.pending = B.connection_end_store.pending)
    (h4 : A.channel_end_store.pending = B.channel_end_store.pending)
    (h5 : A.packet_commitment_store.pending = B.packet_commitment_store.pending)
    (h6 : A.packet_ack_store.pending = B.packet_ack_store.pending)
    (h7 : A.packet_receipt_store.pending = B.packet_receipt_store.pending) :
    query_client_states A = query_client_states B ∧
    (∀ cid, query_consensus_states A cid = query_consensus_states B cid) ∧
    (∀ cid, query_consensus_state_heights A cid = query_consensus_state_heights B cid) ∧
    query_connection_ends A = query_connection_ends B ∧
    query_channel_ends A = query_channel_ends B ∧
    (∀ cep, query_packet_commitments A cep = query_packet_commitments B cep) ∧
    (∀ cep qs, query_packet_acknowledgements A cep qs = query_packet_acknowledgements B cep qs) ∧
    (∀ cep qs, query_unreceived_packets A cep qs = query_unreceived_packets B cep qs) ∧
    (∀ cep qs, query_unreceived_acks A cep qs = query_unreceived_acks B cep qs) := by
  refine ⟨?_, ?_, ?_, ?_, ?_, ?_, ?_, ?_, ?_⟩ <;>
    first
      | simp only [query_client_states, storeKeys, storeGet, h1]
      | (intro cid
         simp only [query_consensus_states, query_consensus_state_heights, storeKeys,
           storeGet, h2])
      | simp only [query_connection_ends, storeKeys, storeGet, h3]
      | simp only [query_channel_ends, storeKeys, storeGet, h4]
      | (intro cep
         simp only [query_packet_commitments, get_packet_commitment, storeKeys, storeGet, h5])
      | (intro cep qs
         simp only [query_packet_acknowledgements, get_packet_acknowledgement, storeKeys,
           storeGet, h6])
      | (intro cep qs
         simp only [query_unreceived_packets, storeKeys, storeGet, h7])
      | (intro cep qs
         simp only [query_unreceived_acks, get_packet_commitment, storeKeys, storeGet, h5])

/-- Store agreeing with `c8_store` on every pending view but with a
different committed history, for the C8 witness. -/
def c8_store_hist : IbcStore :=
  { c8_store with
    client_state_store :=
      { c8_store.client_state_store with
        committed := fun _ => [({ client_id := "07-tendermint-0".toList }, "state".toList)] } }

theorem c8_queries_read_pending_witness :
    query_client_states c8_store = query_client_states c8_store_hist ∧
    (∀ cid, query_consensus_states c8_store cid = query_consensus_states c8_store_hist cid) ∧
    (∀ cid, query_consensus_state_heights c8_store cid =
      query_consensus_state_heights c8_store_hist cid) ∧
    query_connection_ends c8_store = query_connection_ends c8_store_hist ∧
    query_channel_ends c8_store = query_channel_ends c8_store_hist ∧
    (∀ cep, query_packet_commitments c8_store cep = query_packet_commitments c8_store_hist cep) ∧
    (∀ cep qs, query_packet_acknowledgements c8_store cep qs =
      query_packet_acknowledgements c8_store_hist cep qs) ∧
    (∀ cep qs, query_unreceived_packets c8_store cep qs =
      query_unreceived_packets c8_store_hist cep qs) ∧
    (∀ cep qs, query_unreceived_acks c8_store cep qs =
      query_unreceived_acks c8_store_hist cep qs) :=
  c8_queries_read_pending c8_store c8_store_hist rfl rfl rfl rfl rfl rfl rfl
